import Mathlib

/-!
Verification of the LLM-client, session and agent-loop core of the
remote-swe-agents repository, as a shallow embedding in Lean.

The embedding follows the TypeScript sources:
  * the Bedrock client (`converse.ts`): `bedrockConverse`, `shouldUltraThink`,
    `preProcessInput`;
  * the Anthropic client (`anthropic-client.ts`): `modelTypeToAnthropicModel`,
    `convertToAnthropicFormat`, `shouldUltraThink` (Anthropic variant);
  * `packages/worker/src/agent/index.ts`: `agentLoop`, `onMessageReceived`;
  * `packages/agent-core/src/lib/sessions.ts`: `generateSessionTitle`,
    `updateSession`.

Content blocks are modelled as the closed sum given by the AWS SDK union
types (`ContentBlock`, `SystemContentBlock`, `Tool` are tagged unions where
exactly one member field is present); a JavaScript membership test such as
`'reasoningContent' in c` therefore corresponds to a constructor test.
-/

namespace RemoteSwe

/-- JavaScript `Array.prototype.at`: non-negative indices count from the
front, negative indices count from the back, out of range gives none. -/
def List.jsAt {α : Type} (l : List α) (i : Int) : Option α :=
  if 0 ≤ i then l.get? i.toNat
  else
    let j : Int := (l.length : Int) + i
    if 0 ≤ j then l.get? j.toNat else none

/-- Characters of `pat` occur contiguously inside `l`
(JavaScript `String.prototype.includes`). -/
def charsContain (pat : List Char) : List Char → Bool
  | [] => pat.isEmpty
  | c :: rest => pat.isPrefixOf (c :: rest) || charsContain pat rest

/-- JavaScript `String.prototype.includes`. -/
def strIncludes (s pat : String) : Bool :=
  charsContain pat.toList s.toList

/-- JavaScript `String.prototype.toLowerCase` (character-wise lowering). -/
def strLower (s : String) : String :=
  String.mk (s.toList.map Char.toLower)

/-- JavaScript `String.prototype.trim` (drop leading and trailing
whitespace). -/
def jsTrim (s : String) : String :=
  String.mk (((s.toList.dropWhile Char.isWhitespace).reverse.dropWhile
    Char.isWhitespace).reverse)

/-! ## Data model: the provider-neutral (Bedrock) request shape -/

inductive Role
  | user
  | assistant
deriving DecidableEq, Repr

/-- Nested content of a `toolResult` block. -/
inductive ToolResultNested
  | ntext (text : String)
  | nimage (format : String)
deriving DecidableEq, Repr

/-- A message content block (`ContentBlock` union of the Bedrock SDK).
`reasoningContent` carries `reasoningText.text`. -/
inductive ContentBlock
  | text (text : String)
  | image (format : String)
  | toolUse (toolUseId name inputJson : String)
  | toolResult (toolUseId : String) (content : List ToolResultNested) (status : Option String)
  | reasoningContent (text : String)
  | cachePoint
deriving DecidableEq, Repr

def ContentBlock.isReasoning : ContentBlock → Bool
  | .reasoningContent _ => true
  | _ => false

def ContentBlock.isCachePoint : ContentBlock → Bool
  | .cachePoint => true
  | _ => false

structure Msg where
  role : Role
  content : List ContentBlock
deriving DecidableEq, Repr

/-- A system prompt block (`SystemContentBlock` union). -/
inductive SystemBlock
  | text (text : String)
  | cachePoint
deriving DecidableEq, Repr

def SystemBlock.isCachePoint : SystemBlock → Bool
  | .cachePoint => true
  | _ => false

/-- An entry of the tool catalog (`Tool` union): a tool specification or a
cache-point marker. -/
inductive ToolEntry
  | toolSpec (name description : String) (schemaIsObjectType : Bool)
  | cachePoint
deriving DecidableEq, Repr

def ToolEntry.isCachePoint : ToolEntry → Bool
  | .cachePoint => true
  | _ => false

/-- `toolChoice` (union of `auto`, `any`, `tool`); the JavaScript value is an
object whose single key names the kind. -/
inductive ToolChoice
  | auto
  | any
  | tool (name : String)
deriving DecidableEq, Repr

/-- The key present in the `toolChoice` object (`'auto' in tc` etc.). -/
def ToolChoice.key : ToolChoice → String
  | .auto => "auto"
  | .any => "any"
  | .tool _ => "tool"

structure ToolConfig where
  tools : List ToolEntry
  toolChoice : Option ToolChoice := none
deriving DecidableEq, Repr

/-- Inference configuration; `temperature` and `topP` are numeric payloads
that the claims never inspect, carried as integers. -/
structure InferenceConfig where
  maxTokens : Option Nat := none
  temperature : Option Int := none
  topP : Option Int := none
deriving DecidableEq, Repr

/-- `additionalModelRequestFields` as written by `preProcessInput`:
`reasoning_config { type: enabled, budget_tokens }` plus the optional
`anthropic_beta` interleaved-thinking flag. -/
structure AdditionalModelRequestFields where
  budgetTokens : Nat
  anthropicBeta : Bool
deriving DecidableEq, Repr

/-- `ConverseCommandInput` without `modelId`. -/
structure ConverseInput where
  messages : List Msg := []
  system : List SystemBlock := []
  toolConfig : Option ToolConfig := none
  inferenceConfig : Option InferenceConfig := none
  additionalModelRequestFields : Option AdditionalModelRequestFields := none
deriving DecidableEq, Repr

def ConverseInput.toolChoiceOf (input : ConverseInput) : Option ToolChoice :=
  input.toolConfig.bind (·.toolChoice)

/-- A model capability descriptor (one entry of `modelConfigs` in the schema
package). -/
structure ModelConfig where
  modelId : String
  maxOutputTokens : Nat
  reasoningSupport : Bool
  interleavedThinkingSupport : Bool
  toolChoiceSupport : List String
  cacheSupport : List String
deriving DecidableEq, Repr

/-! ## Bedrock client: `shouldUltraThink` and `preProcessInput` -/

def ULTRA_THINKING_KEYWORD : String := "ultrathink"

def defaultOutputTokenCount : Nat := 8192

/-- A content block passing `c.text != null`, i.e. a text block. -/
def ContentBlock.hasTextField : ContentBlock → Bool
  | .text _ => true
  | _ => false

/-- `'text' in content ? content.text : ''`. -/
def ContentBlock.textOrEmpty : ContentBlock → String
  | .text t => t
  | _ => ""

/-- Bedrock `shouldUltraThink`: take the last message that has role `user`
and some content block with a non-null `text` field, join the text of its
blocks with spaces, lowercase, and look for the keyword. -/
def shouldUltraThink (input : ConverseInput) : Bool :=
  let lastUserMessage :=
    (input.messages.filter fun m =>
      m.role = Role.user && m.content.any ContentBlock.hasTextField).getLast?
  match lastUserMessage with
  | none => false
  | some m =>
    let messageText := strLower (String.intercalate " "
      (m.content.map ContentBlock.textOrEmpty))
    strIncludes messageText ULTRA_THINKING_KEYWORD

/-- Step of `preProcessInput` removing `toolChoice` when the model supports
none of the requested choice kinds
(`toolChoiceSupport.every((choice) => !(choice in toolChoice))`). -/
def dropUnsupportedToolChoice (cfg : ModelConfig) (input : ConverseInput) : ConverseInput :=
  match input.toolConfig with
  | none => input
  | some tc =>
    match tc.toolChoice with
    | none => input
    | some choice =>
      if cfg.toolChoiceSupport.all fun s => s ≠ choice.key then
        { input with toolConfig := some { tc with toolChoice := none } }
      else input

/-- `Math.min(modelConfig.maxOutputTokens, defaultOutputTokenCount * 2 ** maxTokensExceededCount)`. -/
def adjustedMaxToken (cfg : ModelConfig) (maxTokensExceededCount : Nat) : Nat :=
  min cfg.maxOutputTokens (defaultOutputTokenCount * 2 ^ maxTokensExceededCount)

/-- `input.messages?.at(-2)?.content?.at(0)?.reasoningContent == null` is
false, i.e. the first content block of the second-to-last message is a
reasoning block. -/
def firstBlockIsReasoning (m : Msg) : Bool :=
  match m.content.head? with
  | some (.reasoningContent _) => true
  | _ => false

/-- `input.messages?.at(-2)?.content?.at(-1)?.toolUse != null`. -/
def lastBlockIsToolUse (m : Msg) : Bool :=
  match m.content.getLast? with
  | some (.toolUse _ _ _) => true
  | _ => false

/-- The Bedrock guard that blocks reasoning mid tool chain: the second-to-last
message ends in a tool-use block and does not start with a reasoning block. -/
def bedrockMidToolChain (msgs : List Msg) : Bool :=
  match List.jsAt msgs (-2) with
  | some m => !(firstBlockIsReasoning m) && lastBlockIsToolUse m
  | none => false

/-- The `enableReasoning` decision of `preProcessInput`, evaluated on the
input after the unsupported-`toolChoice` drop. -/
def bedrockEnableReasoning (cfg : ModelConfig) (input : ConverseInput) : Bool :=
  cfg.reasoningSupport
    && input.toolChoiceOf.isNone
    && !(bedrockMidToolChain input.messages)

/-- Ultra-think budget `Math.min(Math.floor(maxOutputTokens / 2), 31999)`. -/
def ultraBudget (cfg : ModelConfig) : Nat :=
  min (cfg.maxOutputTokens / 2) 31999

/-- Removing `reasoningContent` blocks from every message (the disabled
branch of `preProcessInput`). -/
def stripReasoning (msgs : List Msg) : List Msg :=
  msgs.map fun m => { m with content := m.content.filter fun c => !c.isReasoning }

/-- Cache-point pruning of the system layer (`preProcessInput`, first
`splice` loop). -/
def pruneSystemCachePoints (cfg : ModelConfig) (input : ConverseInput) : ConverseInput :=
  if cfg.cacheSupport.contains "system" then input
  else { input with system := input.system.filter fun s => !s.isCachePoint }

/-- Cache-point pruning of the tool layer (`preProcessInput`, second
`splice` loop). -/
def pruneToolCachePoints (cfg : ModelConfig) (input : ConverseInput) : ConverseInput :=
  if cfg.cacheSupport.contains "tool" then input
  else
    match input.toolConfig with
    | none => input
    | some tc =>
      { input with toolConfig := some ({ tc with tools := tc.tools.filter fun t => !t.isCachePoint }) }

/-- Cache-point pruning of the message layer (`preProcessInput`, third
`splice` loop). -/
def pruneMessageCachePoints (cfg : ModelConfig) (input : ConverseInput) : ConverseInput :=
  if cfg.cacheSupport.contains "message" then input
  else
    { input with messages :=
        input.messages.map fun m =>
          { m with content := m.content.filter fun c => !c.isCachePoint } }

/-- Final step of `preProcessInput`: remove cache points from each layer the
model does not support. -/
def pruneCachePoints (cfg : ModelConfig) (input : ConverseInput) : ConverseInput :=
  pruneMessageCachePoints cfg (pruneToolCachePoints cfg (pruneSystemCachePoints cfg input))

/-- First two mutation steps of `preProcessInput`: drop an unsupported
`toolChoice`, then set the adjusted maximum number of output tokens. -/
def preStep2 (cfg : ModelConfig) (maxTokensExceededCount : Nat)
    (input0 : ConverseInput) : ConverseInput :=
  let input1 := dropUnsupportedToolChoice cfg input0
  let infCfg : InferenceConfig :=
    { input1.inferenceConfig.getD {} with
      maxTokens := some (adjustedMaxToken cfg maxTokensExceededCount) }
  { input1 with inferenceConfig := some infCfg }

/-- `preProcessInput` of the Bedrock client: returns the normalized request
together with the `thinkingBudget` report (set only for an ultra budget). -/
def preProcessInput (cfg : ModelConfig) (maxTokensExceededCount : Nat)
    (input0 : ConverseInput) : ConverseInput × Option Nat :=
  let adjusted := adjustedMaxToken cfg maxTokensExceededCount
  let input2 := preStep2 cfg maxTokensExceededCount input0
  if bedrockEnableReasoning cfg input2 then
    let enableUltraThink := shouldUltraThink input2
    let budget := if enableUltraThink then ultraBudget cfg else 2000
    let input3 : ConverseInput :=
      { input2 with
          additionalModelRequestFields :=
            some ({ budgetTokens := budget,
                    anthropicBeta := cfg.interleavedThinkingSupport }),
          inferenceConfig :=
            some ({ (input2.inferenceConfig.getD {}) with
                    maxTokens := some (max adjusted (min (budget * 2) cfg.maxOutputTokens)) }) }
    (pruneCachePoints cfg input3, if enableUltraThink then some budget else none)
  else
    (pruneCachePoints cfg { input2 with messages := stripReasoning input2.messages }, none)

/-! ## Bedrock client: account rotation and max-token guard (`bedrockConverse`) -/

/-- Outcome of one provider call attempt inside `bedrockConverse`. -/
inductive ProviderOutcome
  | success
  | throttling
  | otherError
deriving DecidableEq, Repr

/-- Errors surfaced (rethrown) by `bedrockConverse`. -/
inductive BedrockError
  | maxTokensExceededTooManyTimes
  | throttling
  | other
deriving DecidableEq, Repr

/-- Control flow of `bedrockConverse` relevant to retries and rotation: the
`maxTokensExceededCount > 5` guard throws before any provider call; a
throttling error from the provider advances the process-wide
`currentAccountIndex` by one modulo `awsAccounts.length` and is rethrown;
any other error is rethrown without rotation; success leaves the index
unchanged. Returns the call result and the new account index. -/
def bedrockConverseAccounting (awsAccountsLength currentAccountIndex : Nat)
    (maxTokensExceededCount : Nat) (outcome : ProviderOutcome) :
    Except BedrockError Unit × Nat :=
  if maxTokensExceededCount > 5 then
    (Except.error BedrockError.maxTokensExceededTooManyTimes, currentAccountIndex)
  else
    match outcome with
    | .success => (Except.ok (), currentAccountIndex)
    | .throttling =>
        (Except.error BedrockError.throttling, (currentAccountIndex + 1) % awsAccountsLength)
    | .otherError => (Except.error BedrockError.other, currentAccountIndex)

/-! ## Agent loop: the retry wrapper around `converse` (agent/index.ts) -/

/-- Stop reason of a successful LLM response, as branched on by the loop. -/
inductive StopReason
  | maxTokens
  | toolUse
  | endTurn
  | stopSequence
deriving DecidableEq, Repr

/-- What the `converse` call inside the retry body produced. -/
inductive ConverseOutcome
  | response (stop : StopReason)
  | throttling
  | otherError
deriving DecidableEq, Repr

/-- How one attempt of the `pRetry` body in `agentLoop` ends. -/
inductive RetrySignal
  | returned
  | retryThrottle
  | retryMaxTokens
  | aborted
deriving DecidableEq, Repr

/-- One attempt of the retry body in `agentLoop` (cancellation not observed):
the `maxTokensExceededCount > 5` guard inside `converse` throws a plain
`Error`, which the catch wraps in a non-retryable `AbortError`; a
`max_tokens` stop reason increments `maxTokensExceededCount` and throws the
retryable `MaxTokenExceededError` sentinel; throttling is retried; any other
error aborts. Returns the signal and the updated count. -/
def agentRetryAttempt (maxTokensExceededCount : Nat) (outcome : ConverseOutcome) :
    RetrySignal × Nat :=
  if maxTokensExceededCount > 5 then
    (RetrySignal.aborted, maxTokensExceededCount)
  else
    match outcome with
    | .response .maxTokens => (RetrySignal.retryMaxTokens, maxTokensExceededCount + 1)
    | .response _ => (RetrySignal.returned, maxTokensExceededCount)
    | .throttling => (RetrySignal.retryThrottle, maxTokensExceededCount)
    | .otherError => (RetrySignal.aborted, maxTokensExceededCount)

/-! ## Anthropic client (anthropic-client.ts) -/

/-- Outbound Anthropic content block (`Anthropic.ContentBlockParam` as built
by `convertToAnthropicFormat`). -/
inductive AnthropicBlock
  | text (text : String)
  | image (format : String)
  | toolUse (id name : String)
  | toolResult (toolUseId : String) (isError : Bool)
  | thinking (text : String)
deriving DecidableEq, Repr

def AnthropicBlock.isThinking : AnthropicBlock → Bool
  | .thinking _ => true
  | _ => false

structure AnthropicMessage where
  role : Role
  content : List AnthropicBlock
deriving DecidableEq, Repr

/-- Outbound Anthropic system block; `cacheControl` records an attached
`cache_control: ephemeral` marker. -/
structure AnthropicSystemBlock where
  text : String
  cacheControl : Bool
deriving DecidableEq, Repr

/-- Outbound Anthropic tool; `cacheControl` records an attached
`cache_control: ephemeral` marker. -/
structure AnthropicTool where
  name : String
  description : String
  cacheControl : Bool
deriving DecidableEq, Repr

/-- Result of `convertToAnthropicFormat`; `thinking` is
`{ type: enabled, budget_tokens }` when present. -/
structure AnthropicRequest where
  messages : List AnthropicMessage
  system : List AnthropicSystemBlock
  maxTokens : Nat
  tools : List AnthropicTool
  thinking : Option Nat
deriving DecidableEq, Repr

/-- The member field `cachePoint` of a `SystemContentBlock`: present only on
the cache-point member of the union, so reading it on a text block gives
undefined (`none`). -/
def SystemBlock.cachePointField : SystemBlock → Option Unit
  | .cachePoint => some ()
  | .text _ => none

/-- The member field `cachePoint` of a `Tool` union entry. -/
def ToolEntry.cachePointField : ToolEntry → Option Unit
  | .cachePoint => some ()
  | .toolSpec _ _ _ => none

/-- One step of the message-content conversion (if / else-if chain over the
block fields, with JavaScript truthiness: an empty text string is falsy and
the block is skipped; a cache-point block matches no branch). -/
def convertContentBlock : ContentBlock → Option AnthropicBlock
  | .text t => if t = "" then none else some (AnthropicBlock.text t)
  | .image format => some (AnthropicBlock.image format)
  | .toolUse id name _ => some (AnthropicBlock.toolUse id name)
  | .toolResult id _ status => some (AnthropicBlock.toolResult id (status = some "error"))
  | .reasoningContent t => some (AnthropicBlock.thinking t)
  | .cachePoint => none

/-- Anthropic-path `shouldUltraThink`: the filter keeps user messages with a
truthy (non-empty) text block, and the joined text also includes the text of
reasoning blocks. -/
def shouldUltraThinkAnthropic (input : ConverseInput) : Bool :=
  let lastUserMessage :=
    (input.messages.filter fun m =>
      m.role = Role.user && m.content.any fun c =>
        match c with
        | .text t => t ≠ ""
        | _ => false).getLast?
  match lastUserMessage with
  | none => false
  | some m =>
    let messageText := strLower (String.intercalate " "
      (m.content.map fun c =>
        match c with
        | .text t => if t = "" then "" else t
        | .reasoningContent t => t
        | _ => ""))
    strIncludes messageText ULTRA_THINKING_KEYWORD

/-- The reasoning-enablement condition of `convertToAnthropicFormat`:
`!toolChoice && !(at(-2).content.at(0) has reasoningContent && at(-2).content.at(-1) has toolUse)`. -/
def anthropicShouldEnableReasoning (input : ConverseInput) : Bool :=
  input.toolChoiceOf.isNone
    && !(match List.jsAt input.messages (-2) with
         | some m => firstBlockIsReasoning m && lastBlockIsToolUse m
         | none => false)

/-- Message conversion of `convertToAnthropicFormat`. -/
def convertAnthropicMessages (msgs : List Msg) : List AnthropicMessage :=
  msgs.map fun m =>
    { role := m.role, content := m.content.filterMap convertContentBlock }

/-- System-prompt conversion of `convertToAnthropicFormat`: only truthy text
blocks are forwarded; `cache_control: ephemeral` is attached when the same
block carries a `cachePoint` member field (which the union type rules
out). -/
def convertAnthropicSystem (system : List SystemBlock) : List AnthropicSystemBlock :=
  system.filterMap fun s =>
    match s with
    | .text t =>
      if t = "" then none
      else some { text := t, cacheControl := s.cachePointField = some () }
    | .cachePoint => none

/-- Tool conversion of `convertToAnthropicFormat`: only entries with a
`toolSpec` member are forwarded; `cache_control: ephemeral` is attached when
the same entry carries a `cachePoint` member field (which the union type
rules out). -/
def convertAnthropicTools (toolConfig : Option ToolConfig) : List AnthropicTool :=
  match toolConfig with
  | none => []
  | some tc =>
    tc.tools.filterMap fun t =>
      match t with
      | .toolSpec name description _ =>
        some { name := name, description := description,
               cacheControl := t.cachePointField = some () }
      | .cachePoint => none

/-- `convertToAnthropicFormat`: converts messages, system blocks, tools and
the inference config, and decides the `thinking` parameter. `system` is kept
as a list (the source collapses a singleton list to a bare string, which
carries the same cache markers). -/
def convertToAnthropicFormat (cfg : ModelConfig) (input : ConverseInput) :
    AnthropicRequest :=
  { messages := convertAnthropicMessages input.messages,
    system := convertAnthropicSystem input.system,
    maxTokens :=
      match input.inferenceConfig.bind (·.maxTokens) with
      | some n => if n = 0 then 8192 else n
      | none => 8192,
    tools := convertAnthropicTools input.toolConfig,
    thinking :=
      if cfg.reasoningSupport && anthropicShouldEnableReasoning input then
        some (if shouldUltraThinkAnthropic input then ultraBudget cfg else 2000)
      else none }

/-- CRI prefixes stripped by `modelTypeToAnthropicModel`
(regex `^(global|us|eu|apac|jp|au)\.`). -/
def criPrefixes : List String :=
  ["global.", "us.", "eu.", "apac.", "jp.", "au."]

/-- Strip the regional prefix from a model id (one occurrence, anchored). -/
def stripCriPrefix (modelId : String) : String :=
  match criPrefixes.find? fun p => p.toList.isPrefixOf modelId.toList with
  | some p => String.mk (modelId.toList.drop p.length)
  | none => modelId

/-- The fixed Bedrock-to-Anthropic model name table. -/
def anthropicModelMapping : List (String × String) :=
  [("anthropic.claude-sonnet-4-5-20250929-v1:0", "claude-sonnet-4.5-20250929"),
   ("anthropic.claude-opus-4-5-20251101-v1:0", "claude-opus-4.5-20251101"),
   ("anthropic.claude-haiku-4-5-20250929-v1:0", "claude-haiku-4.5-20250929"),
   ("anthropic.claude-3-7-sonnet-20250219-v1:0", "claude-3-7-sonnet-20250219"),
   ("anthropic.claude-3-5-sonnet-20241022-v2:0", "claude-3-5-sonnet-20241022"),
   ("anthropic.claude-3-5-haiku-20241022-v1:0", "claude-3-5-haiku-20241022"),
   ("anthropic.claude-4-opus-20250514-v1:0", "claude-4-opus-20250514"),
   ("anthropic.claude-4-1-opus-20250514-v1:0", "claude-4-1-opus-20250514"),
   ("anthropic.claude-4-sonnet-20250514-v1:0", "claude-4-sonnet-20250514")]

/-- Default Anthropic model name used when the base model id is unknown. -/
def defaultAnthropicModel : String := "claude-sonnet-4.5-20250929"

/-- `modelTypeToAnthropicModel`: strip the CRI prefix, look the base id up in
the fixed table, and fall back to the default name (with a warning log)
instead of throwing. -/
def modelTypeToAnthropicModel (cfg : ModelConfig) : String :=
  match anthropicModelMapping.lookup (stripCriPrefix cfg.modelId) with
  | some m => m
  | none => defaultAnthropicModel

/-! ## Session store (sessions.ts) -/

/-- `generateSessionTitle`, as a function of the LLM call result.
`response?.output?.message?.content?.[0].text ?? ''` is read and trimmed:
`none` stands for a missing content list (the optional chain yields
undefined); an empty content list makes `content[0].text` throw a
`TypeError`, which the surrounding catch turns into the empty string; a
non-text first block gives undefined text, hence the empty string. Any call
failure also lands in the catch and returns the empty string. -/
def generateSessionTitleFromResponse (content : Option (List ContentBlock)) : String :=
  match content with
  | none => ""
  | some [] => ""
  | some (b :: _) =>
    jsTrim (match b with
            | ContentBlock.text t => t
            | _ => "")

/-- A session record (the `SessionItem` fields named by the spec data
model). Timestamps and cost are carried as integers. -/
structure SessionItem where
  PK : String
  SK : String
  createdAt : Int
  updatedAt : Int
  agentStatus : String
  title : Option String
  isHidden : Bool
  cost : Int
  initiator : Option String
  slackUserId : Option String
  customAgentId : Option String
  modelOverride : Option String
deriving DecidableEq, Repr

/-- `UpdateSessionParams = Partial<Omit<SessionItem, 'PK' | 'SK' | 'createdAt'>>`:
each field is optional, and `PK`, `SK`, `createdAt` cannot be named at all. -/
structure UpdateSessionParams where
  agentStatus : Option String := none
  title : Option String := none
  isHidden : Option Bool := none
  cost : Option Int := none
  initiator : Option String := none
  slackUserId : Option String := none
  customAgentId : Option String := none
  modelOverride : Option String := none
deriving DecidableEq, Repr

/-- An attribute value of the update expression. -/
inductive AttrValue
  | str (s : String)
  | num (n : Int)
  | boolv (b : Bool)
deriving DecidableEq, Repr

/-- Non-key attribute names that a DynamoDB `SET` clause of this table could
name (the key attributes `PK`/`SK` cannot be assigned by an update). -/
inductive SessionField
  | createdAt
  | updatedAt
  | agentStatus
  | title
  | isHidden
  | cost
  | initiator
  | slackUserId
  | customAgentId
  | modelOverride
deriving DecidableEq, Repr

/-- Interpret one `SET name = value` clause on a session record. A clause
whose value has the wrong shape for the field leaves the record unchanged
(such a clause is never produced). -/
def setSessionField (rec : SessionItem) : SessionField → AttrValue → SessionItem
  | SessionField.createdAt, AttrValue.num n => { rec with createdAt := n }
  | SessionField.updatedAt, AttrValue.num n => { rec with updatedAt := n }
  | SessionField.agentStatus, AttrValue.str v => { rec with agentStatus := v }
  | SessionField.title, AttrValue.str v => { rec with title := some v }
  | SessionField.isHidden, AttrValue.boolv v => { rec with isHidden := v }
  | SessionField.cost, AttrValue.num v => { rec with cost := v }
  | SessionField.initiator, AttrValue.str v => { rec with initiator := some v }
  | SessionField.slackUserId, AttrValue.str v => { rec with slackUserId := some v }
  | SessionField.customAgentId, AttrValue.str v => { rec with customAgentId := some v }
  | SessionField.modelOverride, AttrValue.str v => { rec with modelOverride := some v }
  | _, _ => rec

/-- The `SET` clause contributed by one parameter key: present exactly when
the value is not undefined. -/
def entryOf {α : Type} (k : SessionField) (f : α → AttrValue) :
    Option α → List (SessionField × AttrValue)
  | some v => [(k, f v)]
  | none => []

/-- The `SET` clauses built by `updateSession`: `updatedAt = Date.now()`
first, then one clause per parameter key whose value is not undefined. -/
def updateSessionEntries (now : Int) (p : UpdateSessionParams) :
    List (SessionField × AttrValue) :=
  (SessionField.updatedAt, AttrValue.num now) ::
    (entryOf SessionField.agentStatus AttrValue.str p.agentStatus ++
     entryOf SessionField.title AttrValue.str p.title ++
     entryOf SessionField.isHidden AttrValue.boolv p.isHidden ++
     entryOf SessionField.cost AttrValue.num p.cost ++
     entryOf SessionField.initiator AttrValue.str p.initiator ++
     entryOf SessionField.slackUserId AttrValue.str p.slackUserId ++
     entryOf SessionField.customAgentId AttrValue.str p.customAgentId ++
     entryOf SessionField.modelOverride AttrValue.str p.modelOverride)

/-- Effect of `updateSession` on the stored record with key
`(PK = sessions, SK = workerId)`: apply every `SET` clause in order. -/
def applyUpdateSession (now : Int) (rec : SessionItem) (p : UpdateSessionParams) :
    SessionItem :=
  (updateSessionEntries now p).foldl (fun r kv => setSessionField r kv.1 kv.2) rec

/-! ## Agent loop: token-count attribution (agent/index.ts, after each response) -/

/-- A conversation-history item as used by the loop (`items` array). -/
structure HistoryItem where
  SK : String
  role : Role
  tokenCount : Int
deriving DecidableEq, Repr

/-- Usage counters of an LLM response. -/
structure Usage where
  inputTokens : Nat
  outputTokens : Nat
  cacheReadInputTokens : Nat
  cacheWriteInputTokens : Nat
deriving DecidableEq, Repr

/-- Input tokens billed for a call: prompt plus cache reads and writes. -/
def Usage.billedInputTokens (u : Usage) : Int :=
  (u.inputTokens : Int) + u.cacheReadInputTokens + u.cacheWriteInputTokens

/-- Modelled from the spec: `noOpFiltering` (Context Manager, agent-core lib,
not part of the given sources) is the identity projection of the item window
together with the sum of the per-item `tokenCount` values. -/
def noOpTotalTokenCount (items : List HistoryItem) : Int :=
  (items.map (·.tokenCount)).sum

/-- The token-count attribution step of `agentLoop`: if the last item of the
window has role `user`, overwrite its `tokenCount` with the billed input
tokens minus `totalTokenCount` (the filter result); otherwise do nothing.
The same value is persisted via `updateMessageTokenCount` for that item. -/
def updateLastUserTokenCount (items : List HistoryItem) (usage : Usage)
    (totalTokenCount : Int) : List HistoryItem :=
  match items.getLast? with
  | none => items
  | some lastItem =>
    if lastItem.role = Role.user then
      items.dropLast ++
        [{ lastItem with tokenCount := usage.billedInputTokens - totalTokenCount }]
    else items

/-! ## Agent loop: cancellation trace model (agent/index.ts) -/

/-- Outcome of one loop iteration's (retried) LLM call, as branched on by
the loop body: `toolUse` appends the tool pair atomically and continues;
`finalText` appends the assistant message and breaks; `emptyContent` breaks
without appending. -/
inductive LoopOutcome
  | toolUse
  | finalText
  | emptyContent
deriving DecidableEq, Repr

/-- Observable actions of a turn, in order; appends are tagged with the poll
clock at the start of their iteration. -/
inductive AgentEvent
  | statusWorking
  | appendPair (t : Nat)
  | appendAssistant (t : Nat)
  | statusPending
  | cancelCallback
deriving DecidableEq, Repr

/-- The cancellation token is set by an out-of-band command at an arbitrary
moment; reads are monotone. `cancelAt = some k` means every read at poll
clock `≥ k` observes the cancellation, `none` means it is never set. -/
def isCancelledAt (cancelAt : Option Nat) (t : Nat) : Bool :=
  match cancelAt with
  | none => false
  | some k => k ≤ t

/-- Trace model of the `while` loop of `agentLoop`. Each iteration reads the
token twice: at the top of the loop (break when cancelled) and inside the
retry body just before `converse` is issued (return undefined, then
`if (!res) break`). In between, the chosen outcome drives the branches
described in `LoopOutcome`; history writes other than conversation appends
(token tracking, cost rollup, webapp events) are omitted. The poll clock
advances by one per read; `fuel` bounds the number of iterations and is
taken large enough that it is never exhausted in the statements below.
Returns the events of the loop body and the final poll clock. -/
def agentLoopTrace (cancelAt : Option Nat) (outcomes : Nat → LoopOutcome) :
    Nat → Nat → List AgentEvent × Nat
  | 0, t => ([], t)
  | fuel + 1, t =>
    if isCancelledAt cancelAt t then ([], t + 1)
    else if isCancelledAt cancelAt (t + 1) then ([], t + 2)
    else
      match outcomes t with
      | LoopOutcome.toolUse =>
        let rest := agentLoopTrace cancelAt outcomes fuel (t + 2)
        (AgentEvent.appendPair t :: rest.1, rest.2)
      | LoopOutcome.finalText => ([AgentEvent.appendAssistant t], t + 2)
      | LoopOutcome.emptyContent => ([], t + 2)

/-- Trace model of `onMessageReceived`: set status to working, run the loop,
then in the `finally` block read the token once more; when cancelled, await
`completeCancel` (modelled from the spec: it invokes any registered cancel
callback) and leave the status alone, otherwise set status to pending. -/
def onMessageReceivedTrace (cancelAt : Option Nat) (outcomes : Nat → LoopOutcome)
    (fuel : Nat) : List AgentEvent :=
  let r := agentLoopTrace cancelAt outcomes fuel 0
  AgentEvent.statusWorking ::
    r.1 ++ [if isCancelledAt cancelAt r.2 then AgentEvent.cancelCallback
            else AgentEvent.statusPending]

/-! ## Shared concrete instances for witnesses -/

/-- A capability descriptor with every feature enabled (witness data). -/
def sampleModelConfig : ModelConfig :=
  { modelId := "anthropic.claude-sonnet-4-5-20250929-v1:0",
    maxOutputTokens := 65536,
    reasoningSupport := true,
    interleavedThinkingSupport := true,
    toolChoiceSupport := ["auto", "any", "tool"],
    cacheSupport := ["system", "tool", "message"] }

/-- A capability descriptor with no cache support and no reasoning support
(witness data). -/
def bareModelConfig : ModelConfig :=
  { modelId := "mistral.mistral-large-2402-v1:0",
    maxOutputTokens := 8192,
    reasoningSupport := false,
    interleavedThinkingSupport := false,
    toolChoiceSupport := ["auto"],
    cacheSupport := [] }

/-! ## C3: throttling-driven account rotation -/

/-- C3: on the Bedrock converse path over `N` configured accounts, a
throttling error raised by the provider advances the process-wide account
index by exactly one modulo `N` and rethrows the error, while a successful
call leaves the account index unchanged. (`maxTokensExceededCount ≤ 5` says
the guard that throws before any provider call is not triggered.) -/
theorem bedrock_account_rotation (N i c : Nat) (hc : c ≤ 5) :
    bedrockConverseAccounting N i c ProviderOutcome.throttling
        = (Except.error BedrockError.throttling, (i + 1) % N) ∧
    bedrockConverseAccounting N i c ProviderOutcome.success = (Except.ok (), i) := by
  have h : ¬ c > 5 := Nat.not_lt.mpr hc
  constructor <;> simp [bedrockConverseAccounting, h]

/-- Witness for C3 at `N = 3`, index `2`, count `0`: the throttled call
rotates `2 ↦ 0` and rethrows, the successful call keeps index `2`. -/
theorem bedrock_account_rotation_witness :
    (0 : Nat) ≤ 5 ∧
    (bedrockConverseAccounting 3 2 0 ProviderOutcome.throttling
        = (Except.error BedrockError.throttling, (2 + 1) % 3) ∧
     bedrockConverseAccounting 3 2 0 ProviderOutcome.success = (Except.ok (), 2)) :=
  ⟨by decide, bedrock_account_rotation 3 2 0 (by decide)⟩

/-! ## C4: max-tokens escalation and its bound -/

/-- C4: while `maxTokensExceededCount ≤ 5`, a response stopping with
`max_tokens` makes the retry body increment the count and throw the
retryable sentinel, and the retried call doubles the output-token budget
(up to the model maximum); once the count has been pushed past 5 (which
happens on the sixth increment, i.e. after the five escalated retries), the
next attempt aborts with the fatal non-retryable error for every outcome. -/
theorem max_tokens_escalation (cfg : ModelConfig) (c : Nat)
    (outcome : ConverseOutcome) (hc : c ≤ 5) :
    agentRetryAttempt c (ConverseOutcome.response StopReason.maxTokens)
        = (RetrySignal.retryMaxTokens, c + 1) ∧
    adjustedMaxToken cfg (c + 1)
        = min cfg.maxOutputTokens (2 * (defaultOutputTokenCount * 2 ^ c)) ∧
    agentRetryAttempt 6 outcome = (RetrySignal.aborted, 6) := by
  have h : ¬ c > 5 := Nat.not_lt.mpr hc
  refine ⟨by simp [agentRetryAttempt, h], ?_, by simp [agentRetryAttempt]⟩
  simp only [adjustedMaxToken, pow_succ]
  ring_nf

/-- Witness for C4 at count 5 with a throttling outcome probed at count 6:
the fifth escalation still retries and doubles the budget, count 6 aborts. -/
theorem max_tokens_escalation_witness :
    (5 : Nat) ≤ 5 ∧
    (agentRetryAttempt 5 (ConverseOutcome.response StopReason.maxTokens)
        = (RetrySignal.retryMaxTokens, 5 + 1) ∧
     adjustedMaxToken sampleModelConfig (5 + 1)
        = min sampleModelConfig.maxOutputTokens (2 * (defaultOutputTokenCount * 2 ^ 5)) ∧
     agentRetryAttempt 6 ConverseOutcome.throttling = (RetrySignal.aborted, 6)) :=
  ⟨by decide, max_tokens_escalation sampleModelConfig 5 ConverseOutcome.throttling (by decide)⟩

/-! ## C10: total model-name mapping on the Anthropic path -/

/-- C10: mapping a model type to an Anthropic API model name is total: for
every model whose base model id (after removing any regional prefix) is
absent from the fixed mapping table, the Anthropic path returns the default
model name instead of throwing. -/
theorem unknown_model_maps_to_default (cfg : ModelConfig)
    (h : anthropicModelMapping.lookup (stripCriPrefix cfg.modelId) = none) :
    modelTypeToAnthropicModel cfg = "claude-sonnet-4.5-20250929" := by
  simp [modelTypeToAnthropicModel, h, defaultAnthropicModel]

/-- Witness for C10: the Nova model id is not in the table and maps to the
default Anthropic model name. -/
theorem unknown_model_maps_to_default_witness :
    anthropicModelMapping.lookup (stripCriPrefix bareModelConfig.modelId) = none ∧
    modelTypeToAnthropicModel bareModelConfig = "claude-sonnet-4.5-20250929" :=
  ⟨by decide, unknown_model_maps_to_default bareModelConfig (by decide)⟩

/-! ## C8: session title length -/

/-- C8 counterexample: the title-generation operation does not truncate the
model reply; a response whose first text block has 35 characters produces a
35-character title, violating the 15-character bound the claim states for
every produced title. -/
theorem title_length_not_enforced_cex :
    15 < (generateSessionTitleFromResponse
      (some [ContentBlock.text "Implement the session title feature"])).length := by
  decide

/-- The reply text the amended claim refers to: the text of the first
content block of the LLM response, and the empty string on a missing
content list, an empty content list, or a non-text first block. Written
from the amended claim's words, for comparison with the title operation. -/
def titleReplyText : Option (List ContentBlock) → String
  | some (ContentBlock.text t :: _) => t
  | _ => ""

/-- C8 (amended): for every LLM response, the produced title is exactly the
trimmed reply text — the trimmed text of the first content block, and the
empty string on failure, missing content, an empty content list, or a
non-text first block — with no truncation applied; consequently the title
is at most 15 rendered characters if and only if the trimmed model reply
is (the 15-character limit is requested in the prompt, not enforced by the
code). -/
theorem title_is_trimmed_reply (content : Option (List ContentBlock)) :
    generateSessionTitleFromResponse content = jsTrim (titleReplyText content) ∧
    ((generateSessionTitleFromResponse content).length ≤ 15
      ↔ (jsTrim (titleReplyText content)).length ≤ 15) := by
  have h : generateSessionTitleFromResponse content = jsTrim (titleReplyText content) := by
    match content with
    | none => rfl
    | some [] => rfl
    | some (ContentBlock.text t :: rest) => rfl
    | some (ContentBlock.image f :: rest) => rfl
    | some (ContentBlock.toolUse a b c :: rest) => rfl
    | some (ContentBlock.toolResult a b c :: rest) => rfl
    | some (ContentBlock.reasoningContent t :: rest) => rfl
    | some (ContentBlock.cachePoint :: rest) => rfl
  exact ⟨h, h ▸ Iff.rfl⟩

/-! ## C9: updateSession frame conditions -/

/-- C9: `updateSession` sets `updatedAt` to the current time and modifies
only `updatedAt` plus the explicitly provided fields whose values are
defined; `PK`, `SK`, `createdAt` and every absent (undefined) field are
left unchanged. -/
theorem updateSession_frame (now : Int) (rec : SessionItem) (p : UpdateSessionParams) :
    (applyUpdateSession now rec p).PK = rec.PK ∧
    (applyUpdateSession now rec p).SK = rec.SK ∧
    (applyUpdateSession now rec p).createdAt = rec.createdAt ∧
    (applyUpdateSession now rec p).updatedAt = now ∧
    (applyUpdateSession now rec p).agentStatus
        = (match p.agentStatus with | some v => v | none => rec.agentStatus) ∧
    (applyUpdateSession now rec p).title
        = (match p.title with | some v => some v | none => rec.title) ∧
    (applyUpdateSession now rec p).isHidden
        = (match p.isHidden with | some v => v | none => rec.isHidden) ∧
    (applyUpdateSession now rec p).cost
        = (match p.cost with | some v => v | none => rec.cost) ∧
    (applyUpdateSession now rec p).initiator
        = (match p.initiator with | some v => some v | none => rec.initiator) ∧
    (applyUpdateSession now rec p).slackUserId
        = (match p.slackUserId with | some v => some v | none => rec.slackUserId) ∧
    (applyUpdateSession now rec p).customAgentId
        = (match p.customAgentId with | some v => some v | none => rec.customAgentId) ∧
    (applyUpdateSession now rec p).modelOverride
        = (match p.modelOverride with | some v => some v | none => rec.modelOverride) := by
  rcases p with ⟨a, t, h, c, i, s, g, m⟩
  cases a <;> cases t <;> cases h <;> cases c <;> cases i <;> cases s <;> cases g <;> cases m <;>
    simp only [applyUpdateSession, updateSessionEntries, entryOf, List.cons_append,
      List.nil_append, List.singleton_append, List.foldl_cons, List.foldl_nil,
      setSessionField, and_self, and_true, true_and]

/-! ## Helper lemmas on pruning and the normalization pipeline -/

lemma countP_filter_not {α : Type} (p : α → Bool) (l : List α) :
    (l.filter fun a => !p a).countP p = 0 := by
  induction l with
  | nil => rfl
  | cons a l ih => cases hp : p a <;> simp [List.filter_cons, hp, List.countP_cons, ih]

/-- Cache-point markers in the system layer of a request. -/
def systemCachePointCount (input : ConverseInput) : Nat :=
  input.system.countP SystemBlock.isCachePoint

/-- Cache-point markers in the tool layer of a request. -/
def toolCachePointCount (input : ConverseInput) : Nat :=
  match input.toolConfig with
  | none => 0
  | some tc => tc.tools.countP ToolEntry.isCachePoint

/-- Cache-point markers in the message layer of a request. -/
def messageCachePointCount (input : ConverseInput) : Nat :=
  (input.messages.map fun m => m.content.countP ContentBlock.isCachePoint).sum

/-- Reasoning blocks in the messages of a request. -/
def messageReasoningCount (input : ConverseInput) : Nat :=
  (input.messages.map fun m => m.content.countP ContentBlock.isReasoning).sum

lemma pruneSystem_system (cfg : ModelConfig) (x : ConverseInput)
    (h : cfg.cacheSupport.contains "system" = false) :
    systemCachePointCount (pruneSystemCachePoints cfg x) = 0 := by
  unfold pruneSystemCachePoints systemCachePointCount
  rw [h]
  simp [countP_filter_not]

lemma pruneTool_keeps_system (cfg : ModelConfig) (x : ConverseInput) :
    (pruneToolCachePoints cfg x).system = x.system := by
  unfold pruneToolCachePoints
  split
  · rfl
  · split <;> rfl

lemma pruneMessage_keeps_system (cfg : ModelConfig) (x : ConverseInput) :
    (pruneMessageCachePoints cfg x).system = x.system := by
  unfold pruneMessageCachePoints
  split <;> rfl

lemma pruneSystem_keeps_toolConfig (cfg : ModelConfig) (x : ConverseInput) :
    (pruneSystemCachePoints cfg x).toolConfig = x.toolConfig := by
  unfold pruneSystemCachePoints
  split <;> rfl

lemma pruneTool_tools (cfg : ModelConfig) (x : ConverseInput)
    (h : cfg.cacheSupport.contains "tool" = false) :
    toolCachePointCount (pruneToolCachePoints cfg x) = 0 := by
  unfold pruneToolCachePoints toolCachePointCount
  rw [h]
  simp only [Bool.false_eq_true, if_false]
  cases htc : x.toolConfig with
  | none => simp [htc]
  | some tc => simp [htc, countP_filter_not]

lemma pruneMessage_keeps_toolConfig (cfg : ModelConfig) (x : ConverseInput) :
    (pruneMessageCachePoints cfg x).toolConfig = x.toolConfig := by
  unfold pruneMessageCachePoints
  split <;> rfl

lemma pruneMessage_messages (cfg : ModelConfig) (x : ConverseInput)
    (h : cfg.cacheSupport.contains "message" = false) :
    messageCachePointCount (pruneMessageCachePoints cfg x) = 0 := by
  unfold pruneMessageCachePoints messageCachePointCount
  rw [h]
  simp only [Bool.false_eq_true, if_false, List.map_map]
  apply List.sum_eq_zero
  intro n hn
  simp only [List.mem_map] at hn
  obtain ⟨m, _, rfl⟩ := hn
  simp [Function.comp, countP_filter_not]

lemma pruneSystem_keeps_addFields (cfg : ModelConfig) (x : ConverseInput) :
    (pruneSystemCachePoints cfg x).additionalModelRequestFields
      = x.additionalModelRequestFields := by
  unfold pruneSystemCachePoints
  split <;> rfl

lemma pruneTool_keeps_addFields (cfg : ModelConfig) (x : ConverseInput) :
    (pruneToolCachePoints cfg x).additionalModelRequestFields
      = x.additionalModelRequestFields := by
  unfold pruneToolCachePoints
  split
  · rfl
  · split <;> rfl

lemma pruneMessage_keeps_addFields (cfg : ModelConfig) (x : ConverseInput) :
    (pruneMessageCachePoints cfg x).additionalModelRequestFields
      = x.additionalModelRequestFields := by
  unfold pruneMessageCachePoints
  split <;> rfl

lemma pruneCachePoints_keeps_addFields (cfg : ModelConfig) (x : ConverseInput) :
    (pruneCachePoints cfg x).additionalModelRequestFields
      = x.additionalModelRequestFields := by
  unfold pruneCachePoints
  rw [pruneMessage_keeps_addFields, pruneTool_keeps_addFields, pruneSystem_keeps_addFields]

lemma pruneSystem_keeps_messages (cfg : ModelConfig) (x : ConverseInput) :
    (pruneSystemCachePoints cfg x).messages = x.messages := by
  unfold pruneSystemCachePoints
  split <;> rfl

lemma pruneTool_keeps_messages (cfg : ModelConfig) (x : ConverseInput) :
    (pruneToolCachePoints cfg x).messages = x.messages := by
  unfold pruneToolCachePoints
  split
  · rfl
  · split <;> rfl

/-- `dropUnsupportedToolChoice` leaves the message list alone. -/
lemma dropToolChoice_keeps_messages (cfg : ModelConfig) (x : ConverseInput) :
    (dropUnsupportedToolChoice cfg x).messages = x.messages := by
  unfold dropUnsupportedToolChoice
  split
  · rfl
  · split
    · rfl
    · split <;> rfl

/-- `shouldUltraThink` reads only the message list. -/
lemma shouldUltraThink_congr (x y : ConverseInput) (h : x.messages = y.messages) :
    shouldUltraThink x = shouldUltraThink y := by
  unfold shouldUltraThink
  rw [h]

/-- The keyword detection is unchanged by the first two normalization
steps. -/
lemma shouldUltraThink_preStep2 (cfg : ModelConfig) (count : Nat) (x : ConverseInput) :
    shouldUltraThink (preStep2 cfg count x) = shouldUltraThink x := by
  apply shouldUltraThink_congr
  show (dropUnsupportedToolChoice cfg x).messages = x.messages
  exact dropToolChoice_keeps_messages cfg x

lemma convertAnthropicSystem_no_cache (system : List SystemBlock) :
    (convertAnthropicSystem system).countP (fun b => b.cacheControl) = 0 := by
  apply List.countP_eq_zero.mpr
  intro b hb
  unfold convertAnthropicSystem at hb
  simp only [List.mem_filterMap] at hb
  obtain ⟨s, _, hs⟩ := hb
  cases s with
  | text t =>
    by_cases ht : t = ""
    · simp [ht] at hs
    · simp only [ht, if_false, SystemBlock.cachePointField, Option.some.injEq] at hs
      rw [← hs]
      simp
  | cachePoint => simp at hs

lemma convertAnthropicTools_no_cache (toolConfig : Option ToolConfig) :
    (convertAnthropicTools toolConfig).countP (fun b => b.cacheControl) = 0 := by
  apply List.countP_eq_zero.mpr
  intro b hb
  unfold convertAnthropicTools at hb
  cases toolConfig with
  | none => simp at hb
  | some tc =>
    simp only [List.mem_filterMap] at hb
    obtain ⟨t, _, ht⟩ := hb
    cases t with
    | toolSpec name description sObj =>
      simp only [ToolEntry.cachePointField, Option.some.injEq] at ht
      rw [← ht]
      simp
    | cachePoint => simp at ht

/-! ## C6: token-count attribution after a response -/

/-- C6: after each LLM response, if the last item of the message window has
role `user`, its `tokenCount` is overwritten with the billed input tokens
(input + cache read + cache write) minus the sum of the `tokenCount` values
of the items in the window, and no other item is changed in any way; the
resulting value may be negative. The window token sum is the result of the
no-op context filter. -/
theorem token_attribution (items : List HistoryItem) (usage : Usage)
    (lastItem : HistoryItem) (hlast : items.getLast? = some lastItem)
    (hrole : lastItem.role = Role.user) :
    updateLastUserTokenCount items usage (noOpTotalTokenCount items)
        = items.dropLast ++
          [{ lastItem with
              tokenCount := usage.billedInputTokens - noOpTotalTokenCount items }] ∧
    (∃ its u x, (updateLastUserTokenCount its u (noOpTotalTokenCount its)).getLast? = some x
        ∧ x.tokenCount < 0) := by
  constructor
  · unfold updateLastUserTokenCount
    rw [hlast]
    simp [hrole]
  · refine ⟨[⟨"m1", Role.user, 100⟩], ⟨0, 0, 0, 0⟩, ?_⟩
    exact ⟨⟨"m1", Role.user, -100⟩, by decide, by decide⟩

/-- Witness for C6 on a three-item window: billed = 100 + 20 + 30 = 150,
window sum = 5 + 7 + 3 = 15, so the last user item is set to 135. -/
theorem token_attribution_witness :
    ([⟨"a", Role.user, 5⟩, ⟨"b", Role.assistant, 7⟩,
      (⟨"c", Role.user, 3⟩ : HistoryItem)].getLast? = some ⟨"c", Role.user, 3⟩) ∧
    (⟨"c", Role.user, (3 : Int)⟩ : HistoryItem).role = Role.user ∧
    updateLastUserTokenCount
        [⟨"a", Role.user, 5⟩, ⟨"b", Role.assistant, 7⟩, ⟨"c", Role.user, 3⟩]
        ⟨100, 9, 20, 30⟩
        (noOpTotalTokenCount
          [⟨"a", Role.user, 5⟩, ⟨"b", Role.assistant, 7⟩, ⟨"c", Role.user, 3⟩])
      = [⟨"a", Role.user, 5⟩, ⟨"b", Role.assistant, 7⟩, ⟨"c", Role.user, 135⟩] := by
  refine ⟨by decide, by decide, ?_⟩
  have h := token_attribution
    [⟨"a", Role.user, 5⟩, ⟨"b", Role.assistant, 7⟩, ⟨"c", Role.user, 3⟩]
    ⟨100, 9, 20, 30⟩ ⟨"c", Role.user, 3⟩ (by decide) (by decide)
  rw [h.1]
  decide

/-! ## C5: reasoning budget and the ultrathink keyword -/

/-- C5: whenever normalization enables reasoning, the attached budget is
2000 by default and `min(⌊maxOutputTokens / 2⌋, 31999)` exactly when the
text of the last user message containing text, lowercased, includes the
substring `ultrathink`; when the two candidate budgets differ, the attached
budget equals the ultra value if and only if the keyword was present. -/
theorem reasoning_budget (cfg : ModelConfig) (count : Nat) (input : ConverseInput)
    (henable : bedrockEnableReasoning cfg (preStep2 cfg count input) = true) :
    ((preProcessInput cfg count input).1.additionalModelRequestFields.map
        (·.budgetTokens))
      = some (if shouldUltraThink input then ultraBudget cfg else 2000) ∧
    (ultraBudget cfg ≠ 2000 →
      (((preProcessInput cfg count input).1.additionalModelRequestFields.map
          (·.budgetTokens)) = some (ultraBudget cfg)
        ↔ shouldUltraThink input = true)) := by
  have hbudget :
      ((preProcessInput cfg count input).1.additionalModelRequestFields.map
        (·.budgetTokens))
      = some (if shouldUltraThink input then ultraBudget cfg else 2000) := by
    simp only [preProcessInput, henable, if_true, pruneCachePoints_keeps_addFields,
      shouldUltraThink_preStep2]
    by_cases hu : shouldUltraThink input <;> simp [hu]
  refine ⟨hbudget, fun hne => ?_⟩
  rw [hbudget]
  by_cases hu : shouldUltraThink input <;> simp [hu, Ne.symm hne]

/-- Witness for C5: a reasoning-capable model and a last user message
containing `ULTRAthink` get the ultra budget `min(65536 / 2, 31999)`. -/
theorem reasoning_budget_witness :
    bedrockEnableReasoning sampleModelConfig
        (preStep2 sampleModelConfig 0
          { messages := [{ role := Role.user,
                           content := [ContentBlock.text "please ULTRAthink about this"] }] })
      = true ∧
    (((preProcessInput sampleModelConfig 0
        { messages := [{ role := Role.user,
                         content := [ContentBlock.text "please ULTRAthink about this"] }] }).1.additionalModelRequestFields.map
        (·.budgetTokens))
      = some (if shouldUltraThink
            { messages := [{ role := Role.user,
                             content := [ContentBlock.text "please ULTRAthink about this"] }] }
          then ultraBudget sampleModelConfig else 2000) ∧
     (ultraBudget sampleModelConfig ≠ 2000 →
      (((preProcessInput sampleModelConfig 0
          { messages := [{ role := Role.user,
                           content := [ContentBlock.text "please ULTRAthink about this"] }] }).1.additionalModelRequestFields.map
          (·.budgetTokens)) = some (ultraBudget sampleModelConfig)
        ↔ shouldUltraThink
            { messages := [{ role := Role.user,
                             content := [ContentBlock.text "please ULTRAthink about this"] }] }
          = true))) :=
  ⟨by decide,
   reasoning_budget sampleModelConfig 0
     { messages := [{ role := Role.user,
                      content := [ContentBlock.text "please ULTRAthink about this"] }] }
     (by decide)⟩

/-! ## C7: cache-point pruning per unsupported layer -/

/-- C7: for each of the layers system, tool and message that is not in the
chosen model's `cacheSupport` set, the normalized outbound request contains
zero cache-point markers in that layer. On the Bedrock path this is the
pruning step of `preProcessInput`; on the Anthropic path the converted
request carries no cache markers at all (the union block types never
satisfy the member test that would attach `cache_control`). -/
theorem cache_point_pruning (cfg : ModelConfig) (count : Nat) (input : ConverseInput) :
    (cfg.cacheSupport.contains "system" = false →
      systemCachePointCount (preProcessInput cfg count input).1 = 0) ∧
    (cfg.cacheSupport.contains "tool" = false →
      toolCachePointCount (preProcessInput cfg count input).1 = 0) ∧
    (cfg.cacheSupport.contains "message" = false →
      messageCachePointCount (preProcessInput cfg count input).1 = 0) ∧
    ((convertToAnthropicFormat cfg input).system.countP (fun b => b.cacheControl) = 0) ∧
    ((convertToAnthropicFormat cfg input).tools.countP (fun b => b.cacheControl) = 0) := by
  have hout : ∃ y, (preProcessInput cfg count input).1 = pruneCachePoints cfg y := by
    by_cases he : bedrockEnableReasoning cfg (preStep2 cfg count input) <;>
      simp [preProcessInput, he]
  obtain ⟨y, hy⟩ := hout
  rw [hy]
  unfold pruneCachePoints
  refine ⟨fun h => ?_, fun h => ?_, fun h => ?_, ?_, ?_⟩
  · unfold systemCachePointCount
    rw [pruneMessage_keeps_system, pruneTool_keeps_system]
    exact pruneSystem_system cfg y h
  · unfold toolCachePointCount
    rw [pruneMessage_keeps_toolConfig]
    have := pruneTool_tools cfg (pruneSystemCachePoints cfg y) h
    unfold toolCachePointCount at this
    exact this
  · exact pruneMessage_messages cfg _ h
  · exact convertAnthropicSystem_no_cache input.system
  · exact convertAnthropicTools_no_cache input.toolConfig

/-- Witness for C7 on a model with empty `cacheSupport` and a request with
cache points in all three layers. -/
theorem cache_point_pruning_witness :
    (systemCachePointCount (preProcessInput bareModelConfig 0
        { messages := [{ role := Role.user,
                         content := [ContentBlock.text "hello", ContentBlock.cachePoint] }],
          system := [SystemBlock.text "sys", SystemBlock.cachePoint],
          toolConfig := some { tools := [ToolEntry.toolSpec "fileEdit" "edit" true,
                                         ToolEntry.cachePoint] } }).1 = 0) ∧
    (toolCachePointCount (preProcessInput bareModelConfig 0
        { messages := [{ role := Role.user,
                         content := [ContentBlock.text "hello", ContentBlock.cachePoint] }],
          system := [SystemBlock.text "sys", SystemBlock.cachePoint],
          toolConfig := some { tools := [ToolEntry.toolSpec "fileEdit" "edit" true,
                                         ToolEntry.cachePoint] } }).1 = 0) ∧
    (messageCachePointCount (preProcessInput bareModelConfig 0
        { messages := [{ role := Role.user,
                         content := [ContentBlock.text "hello", ContentBlock.cachePoint] }],
          system := [SystemBlock.text "sys", SystemBlock.cachePoint],
          toolConfig := some { tools := [ToolEntry.toolSpec "fileEdit" "edit" true,
                                         ToolEntry.cachePoint] } }).1 = 0) :=
  ⟨(cache_point_pruning bareModelConfig 0 _).1 (by decide),
   (cache_point_pruning bareModelConfig 0 _).2.1 (by decide),
   (cache_point_pruning bareModelConfig 0 _).2.2.1 (by decide)⟩

/-! ## C1: reasoning enablement on the two provider paths -/

/-- The reasoning-enablement condition in the words of the claim (property
P6 of the spec): the model supports reasoning, the request carries no
`toolChoice`, and the second-to-last message is not a tool-use message
(last block a tool use) lacking a preceding reasoning block (first block
not a reasoning block). Written from the specification, to be compared
with both provider paths. -/
def specReasoningEnabled (cfg : ModelConfig) (input : ConverseInput) : Bool :=
  cfg.reasoningSupport && input.toolChoiceOf.isNone
    && !(match List.jsAt input.messages (-2) with
         | some m => lastBlockIsToolUse m && !(firstBlockIsReasoning m)
         | none => false)

/-- The Anthropic-path condition actually implemented by the code: reasoning
is disabled exactly when the second-to-last message both starts with a
reasoning block and ends with a tool use (the negation the claim intends is
inverted). -/
def amendedAnthropicReasoningEnabled (cfg : ModelConfig) (input : ConverseInput) : Bool :=
  cfg.reasoningSupport && input.toolChoiceOf.isNone
    && !(match List.jsAt input.messages (-2) with
         | some m => firstBlockIsReasoning m && lastBlockIsToolUse m
         | none => false)

lemma amendedAnthropic_eq (cfg : ModelConfig) (input : ConverseInput) :
    amendedAnthropicReasoningEnabled cfg input
      = (cfg.reasoningSupport && anthropicShouldEnableReasoning input) := by
  unfold amendedAnthropicReasoningEnabled anthropicShouldEnableReasoning
  rw [Bool.and_assoc]

/-- A request whose second-to-last message both starts with a reasoning
block and ends with a tool use: an in-progress tool chain carrying a
reasoning block. -/
def midChainReasoningInput : ConverseInput :=
  { messages :=
      [{ role := Role.user, content := [ContentBlock.text "hi"] },
       { role := Role.assistant,
         content := [ContentBlock.reasoningContent "rsn",
                     ContentBlock.toolUse "t1" "commandExecution" ""] },
       { role := Role.user,
         content := [ContentBlock.toolResult "t1" [ToolResultNested.ntext "ok"] none] }] }

/-- C1 counterexample: on the Anthropic provider path, for a reasoning-capable
model with no `toolChoice` and a second-to-last message that is a tool use
with a preceding reasoning block, the claim requires reasoning to be enabled,
but `convertToAnthropicFormat` disables it (its condition is inverted
relative to the Bedrock path); moreover the outbound messages still contain
a thinking block while reasoning is disabled. -/
theorem reasoning_gating_cex :
    specReasoningEnabled sampleModelConfig midChainReasoningInput = true ∧
    (convertToAnthropicFormat sampleModelConfig midChainReasoningInput).thinking = none ∧
    ((convertToAnthropicFormat sampleModelConfig midChainReasoningInput).messages.any
        fun m => m.content.any AnthropicBlock.isThinking) = true :=
  ⟨by decide, by decide, by decide⟩

lemma countP_filter_le {α : Type} (p q : α → Bool) (l : List α) :
    (l.filter q).countP p ≤ l.countP p := by
  induction l with
  | nil => simp
  | cons a l ih =>
    cases hq : q a <;> cases hp : p a <;>
      simp [List.filter_cons, hq, List.countP_cons, hp] <;> omega

lemma stripReasoning_count (msgs : List Msg) :
    ((stripReasoning msgs).map fun m => m.content.countP ContentBlock.isReasoning).sum
      = 0 := by
  apply List.sum_eq_zero
  intro n hn
  simp only [stripReasoning, List.map_map, List.mem_map, Function.comp] at hn
  obtain ⟨m, _, rfl⟩ := hn
  exact countP_filter_not _ _

lemma pruneCachePoints_reasoningCount_le (cfg : ModelConfig) (y : ConverseInput) :
    messageReasoningCount (pruneCachePoints cfg y) ≤ messageReasoningCount y := by
  unfold pruneCachePoints pruneMessageCachePoints messageReasoningCount
  split
  · rw [pruneTool_keeps_messages, pruneSystem_keeps_messages]
  · show (List.map _ (List.map _ (pruneToolCachePoints cfg
        (pruneSystemCachePoints cfg y)).messages)).sum ≤ _
    rw [pruneTool_keeps_messages, pruneSystem_keeps_messages, List.map_map]
    apply List.sum_le_sum
    intro m _
    simp only [Function.comp]
    exact countP_filter_le _ _ _

/-- Conversion to Anthropic blocks sends the reasoning blocks of a content
list exactly to its thinking blocks. -/
lemma convertContent_thinking_count (l : List ContentBlock) :
    (l.filterMap convertContentBlock).countP AnthropicBlock.isThinking
      = l.countP ContentBlock.isReasoning := by
  induction l with
  | nil => rfl
  | cons c l ih =>
    cases c with
    | text t =>
      by_cases ht : t = "" <;>
        simp [List.filterMap_cons, convertContentBlock, ht, List.countP_cons, ih,
          AnthropicBlock.isThinking, ContentBlock.isReasoning]
    | image format =>
      simp [List.filterMap_cons, convertContentBlock, List.countP_cons, ih,
        AnthropicBlock.isThinking, ContentBlock.isReasoning]
    | toolUse a b c2 =>
      simp [List.filterMap_cons, convertContentBlock, List.countP_cons, ih,
        AnthropicBlock.isThinking, ContentBlock.isReasoning]
    | toolResult a b c2 =>
      simp [List.filterMap_cons, convertContentBlock, List.countP_cons, ih,
        AnthropicBlock.isThinking, ContentBlock.isReasoning]
    | reasoningContent t =>
      simp [List.filterMap_cons, convertContentBlock, List.countP_cons, ih,
        AnthropicBlock.isThinking, ContentBlock.isReasoning]
    | cachePoint =>
      simp [List.filterMap_cons, convertContentBlock, List.countP_cons, ih,
        AnthropicBlock.isThinking, ContentBlock.isReasoning]

/-- C1 (amended): on the Bedrock path, `preProcessInput` enables reasoning
exactly under the claim's condition, evaluated after the
unsupported-`toolChoice` drop, and when reasoning is disabled the outbound
messages contain no reasoning blocks. On the Anthropic path, reasoning
(`thinking`) is enabled exactly under the inverted condition the code
implements (disabled when the second-to-last message starts with a
reasoning block and ends with a tool use), and reasoning blocks of the
input are forwarded as thinking blocks regardless of that decision. -/
theorem reasoning_gating (cfg : ModelConfig) (count : Nat) (input : ConverseInput) :
    (bedrockEnableReasoning cfg (preStep2 cfg count input)
        = specReasoningEnabled cfg (dropUnsupportedToolChoice cfg input)) ∧
    (bedrockEnableReasoning cfg (preStep2 cfg count input) = false →
      messageReasoningCount (preProcessInput cfg count input).1 = 0) ∧
    ((convertToAnthropicFormat cfg input).thinking.isSome
        = amendedAnthropicReasoningEnabled cfg input) ∧
    (((convertToAnthropicFormat cfg input).messages.map
        fun m => m.content.countP AnthropicBlock.isThinking).sum
      = (input.messages.map fun m => m.content.countP ContentBlock.isReasoning).sum) := by
  refine ⟨?_, ?_, ?_, ?_⟩
  · have hm : (preStep2 cfg count input).messages
        = (dropUnsupportedToolChoice cfg input).messages := rfl
    have ht : (preStep2 cfg count input).toolChoiceOf
        = (dropUnsupportedToolChoice cfg input).toolChoiceOf := rfl
    unfold bedrockEnableReasoning specReasoningEnabled bedrockMidToolChain
    rw [hm, ht]
    cases hj : List.jsAt (dropUnsupportedToolChoice cfg input).messages (-2) <;>
      simp [hj, Bool.and_comm]
  · intro hdis
    have hrw : (preProcessInput cfg count input).1
        = pruneCachePoints cfg
            { preStep2 cfg count input with
                messages := stripReasoning (preStep2 cfg count input).messages } := by
      simp [preProcessInput, hdis]
    rw [hrw]
    have hle := pruneCachePoints_reasoningCount_le cfg
      { preStep2 cfg count input with
          messages := stripReasoning (preStep2 cfg count input).messages }
    have hzero : messageReasoningCount
        { preStep2 cfg count input with
            messages := stripReasoning (preStep2 cfg count input).messages } = 0 := by
      unfold messageReasoningCount
      exact stripReasoning_count _
    omega
  · rw [amendedAnthropic_eq]
    by_cases h : (cfg.reasoningSupport && anthropicShouldEnableReasoning input) = true <;>
      simp [convertToAnthropicFormat, h]
  · show (List.map _ (convertAnthropicMessages input.messages)).sum = _
    unfold convertAnthropicMessages
    rw [List.map_map]
    congr 1
    apply List.map_congr_left
    intro m _
    simp [Function.comp, convertContent_thinking_count]

/-- Witness for C1 (amended) on a model without reasoning support and a
request carrying a reasoning block: reasoning is disabled and the stripped
request has zero reasoning blocks. -/
theorem reasoning_gating_witness :
    bedrockEnableReasoning bareModelConfig (preStep2 bareModelConfig 0 midChainReasoningInput)
        = false ∧
    messageReasoningCount (preProcessInput bareModelConfig 0 midChainReasoningInput).1 = 0 ∧
    (bedrockEnableReasoning bareModelConfig (preStep2 bareModelConfig 0 midChainReasoningInput)
        = specReasoningEnabled bareModelConfig
            (dropUnsupportedToolChoice bareModelConfig midChainReasoningInput)) :=
  ⟨by decide,
   (reasoning_gating bareModelConfig 0 midChainReasoningInput).2.1 (by decide),
   (reasoning_gating bareModelConfig 0 midChainReasoningInput).1⟩

/-! ## C2: cancellation semantics of a turn -/

/-- An append event is admissible when the pre-call poll of its iteration
did not observe the cancellation; non-append events are unconstrained. -/
def appendBeforeCancel (cancelAt : Option Nat) : AgentEvent → Bool
  | AgentEvent.appendPair s => !isCancelledAt cancelAt (s + 1)
  | AgentEvent.appendAssistant s => !isCancelledAt cancelAt (s + 1)
  | _ => true

/-- Every event of the loop body is an append from an iteration whose
pre-call poll passed; the loop itself never emits a status or callback
event. -/
lemma agentLoopTrace_events (cancelAt : Option Nat) (outcomes : Nat → LoopOutcome) :
    ∀ fuel t, ∀ e ∈ (agentLoopTrace cancelAt outcomes fuel t).1,
      appendBeforeCancel cancelAt e = true ∧
      e ≠ AgentEvent.statusPending ∧ e ≠ AgentEvent.cancelCallback := by
  intro fuel
  induction fuel with
  | zero =>
    intro t e he
    simp [agentLoopTrace] at he
  | succ fuel ih =>
    intro t e he
    unfold agentLoopTrace at he
    by_cases h1 : isCancelledAt cancelAt t = true
    · simp [h1] at he
    · by_cases h2 : isCancelledAt cancelAt (t + 1) = true
      · simp [h1, h2] at he
      · simp only [h1, h2, Bool.false_eq_true, if_false, eq_self_iff_true] at he
        cases ho : outcomes t with
        | toolUse =>
          rw [ho] at he
          simp only [List.mem_cons] at he
          rcases he with rfl | he
          · refine ⟨?_, by simp, by simp⟩
            simp only [appendBeforeCancel]
            simp [eq_false_of_ne_true h2]
          · exact ih (t + 2) e he
        | finalText =>
          rw [ho] at he
          simp only [List.mem_singleton] at he
          subst he
          refine ⟨?_, by simp, by simp⟩
          simp only [appendBeforeCancel]
          simp [eq_false_of_ne_true h2]
        | emptyContent =>
          rw [ho] at he
          simp at he

/-- C2 (amended): the turn trace ends with exactly one terminal action,
chosen by the cancellation state at the final poll: the awaited cancel
callback when the turn was cancelled, the pending status update otherwise
(so a cancelled exit never sets the status to pending); and every append in
the trace comes from an iteration whose pre-call poll did not observe the
cancellation — the loop discards the call of an iteration whose pre-call
poll observes the cancellation, while the result of a call issued before
the cancellation arrived may still be appended. -/
theorem cancellation_semantics (cancelAt : Option Nat) (outcomes : Nat → LoopOutcome)
    (fuel : Nat) :
    (onMessageReceivedTrace cancelAt outcomes fuel).getLast?
      = some (if isCancelledAt cancelAt (agentLoopTrace cancelAt outcomes fuel 0).2
              then AgentEvent.cancelCallback else AgentEvent.statusPending) ∧
    (AgentEvent.statusPending ∈ onMessageReceivedTrace cancelAt outcomes fuel
      ↔ isCancelledAt cancelAt (agentLoopTrace cancelAt outcomes fuel 0).2 = false) ∧
    (AgentEvent.cancelCallback ∈ onMessageReceivedTrace cancelAt outcomes fuel
      ↔ isCancelledAt cancelAt (agentLoopTrace cancelAt outcomes fuel 0).2 = true) ∧
    (agentLoopTrace cancelAt outcomes fuel 0).1.all (appendBeforeCancel cancelAt) = true := by
  have hev := agentLoopTrace_events cancelAt outcomes fuel 0
  have htr : onMessageReceivedTrace cancelAt outcomes fuel
      = AgentEvent.statusWorking :: (agentLoopTrace cancelAt outcomes fuel 0).1 ++
        [if isCancelledAt cancelAt (agentLoopTrace cancelAt outcomes fuel 0).2
         then AgentEvent.cancelCallback else AgentEvent.statusPending] := rfl
  have hnp : AgentEvent.statusPending ∉ (agentLoopTrace cancelAt outcomes fuel 0).1 :=
    fun h => absurd rfl (hev _ h).2.1
  have hnc : AgentEvent.cancelCallback ∉ (agentLoopTrace cancelAt outcomes fuel 0).1 :=
    fun h => absurd rfl (hev _ h).2.2
  refine ⟨?_, ?_, ?_, ?_⟩
  · rw [htr, List.getLast?_concat]
  · rw [htr]
    by_cases hc : isCancelledAt cancelAt (agentLoopTrace cancelAt outcomes fuel 0).2 = true <;>
      simp [hc, hnp]
  · rw [htr]
    by_cases hc : isCancelledAt cancelAt (agentLoopTrace cancelAt outcomes fuel 0).2 = true <;>
      simp [hc, hnc]
  · rw [List.all_eq_true]
    intro e he
    exact (hev e he).1

/-- C2 counterexample: with the cancellation arriving at poll clock 2 —
after the pre-call poll (clock 1), i.e. while the LLM call of the first
iteration is in flight — the turn is cancelled (the cancel callback runs
and pending is never set), yet the in-flight call's result is appended to
the conversation history, contradicting the claim that a cancelled turn
exits without appending the in-flight result. -/
theorem cancellation_discard_cex :
    onMessageReceivedTrace (some 2) (fun _ => LoopOutcome.finalText) 3
      = [AgentEvent.statusWorking, AgentEvent.appendAssistant 0,
         AgentEvent.cancelCallback] ∧
    AgentEvent.cancelCallback
        ∈ onMessageReceivedTrace (some 2) (fun _ => LoopOutcome.finalText) 3 ∧
    AgentEvent.appendAssistant 0
        ∈ onMessageReceivedTrace (some 2) (fun _ => LoopOutcome.finalText) 3 ∧
    AgentEvent.statusPending
        ∉ onMessageReceivedTrace (some 2) (fun _ => LoopOutcome.finalText) 3 := by
  refine ⟨by decide, by decide, by decide, by decide⟩

end RemoteSwe
